import Mathlib

/-!
Shallow embedding of the governance module in src/runtime/src/governance.rs
(Substrate runtime pallet).

Modelling conventions:

* AccountId, Balance, BlockNumber and the vote counter are u64 in the test
  runtime; they are modelled as Nat.  Wherever the Rust code performs plain
  u64 arithmetic that can overflow (the release build wraps), the model takes
  the result modulo 2^64 (wadd64 / the product in lockWeight).  checked_add
  is modelled by checked_add64, and SaturatedConversion::saturated_into by
  sat64.
* Substrate storage maps return the Default value for a missing key; the
  model keeps an Option-valued map together with a getD at each read, so
  that the exists checks of the source can be expressed as isSome.
* ensure_signed(origin) is modelled by passing the signing account directly.
* set_lock / remove_lock of the Currency trait are modelled as a map from
  (lock id, account) to the locked amount; the lock lifetime (LockPeriod)
  and the WithdrawReasons mask are parameters the claims never mention and
  are not tracked.  free_balance is an external input kept in the state and
  never modified by the module.
* Hashing::hash(data) is only stored and never inspected, so VoteIndexHash
  stores the hashed bytes themselves.
* print is a no-op; deposit_event appends to the events list.
-/

namespace MGov

def U64 : Nat := 2 ^ 64

/-- checked_add on u64: some on success, none on overflow. -/
def checked_add64 (a b : Nat) : Option Nat :=
  if a + b < U64 then some (a + b) else none

/-- Wrapping u64 addition (release-mode +). -/
def wadd64 (a b : Nat) : Nat := (a + b) % U64

/-- SaturatedConversion::saturated_into::<u64>. -/
def sat64 (x : Nat) : Nat := min x (U64 - 1)

/-- The Ballot enum of the source. -/
inductive Ballot
  | Aye
  | Nay
deriving DecidableEq, Repr

/-- The Vote struct of the source. -/
structure Vote where
  id : Nat
  creator : Nat
  when : Nat
  vote_ends : Nat
  concluded : Bool
  vote_type : Nat
deriving DecidableEq, Repr

/-- Default value of Vote (codec Default derive). -/
def defaultVote : Vote :=
  { id := 0, creator := 0, when := 0, vote_ends := 0, concluded := false, vote_type := 0 }

/-- The LockInfo struct of the source. -/
structure LockInfo where
  deposit : Nat
  duration : Nat
  until_ : Nat
deriving DecidableEq, Repr

/-- Default value of LockInfo. -/
def defaultLockInfo : LockInfo := { deposit := 0, duration := 0, until_ := 0 }

/-- The events declared in decl_event. -/
inductive Event
  | Created (who : Nat) (id : Nat)
  | Voted (who : Nat) (id : Nat) (b : Ballot)
  | Concluded (id : Nat)
  | Withdrew (who : Nat) (id : Nat)
deriving DecidableEq, Repr

/-- The storage items of decl_storage, plus the block height, the external
free balances and the currency locks, and the emitted events. -/
structure State where
  height : Nat
  allVoteCount : Nat
  votesByIndex : Nat → Option Vote
  voteCreator : Nat → Option Nat
  createdVoteCount : Nat → Nat
  voteByCreatorArray : Nat × Nat → Option Vote
  voteResults : Nat → Option (List Nat)
  voteIndexHash : Nat → Option (List Nat)
  votedAccounts : Nat × Nat → List Nat
  lockBalance : Nat × Nat → Option LockInfo
  lockCount : Nat
  freeBalance : Nat → Nat
  locks : Nat × Nat → Option Nat
  events : List Event

/-- Pointwise map update. -/
def upd {α β : Type} [DecidableEq α] (m : α → β) (k : α) (v : β) : α → β :=
  fun x => if x = k then v else m x

/-- Dispatch result of an operation. -/
abbrev R := Except String Unit

/-- True exactly when a dispatch returned Err. -/
def errOf : R → Bool
  | Except.ok _ => false
  | Except.error _ => true

/-- Getter votes(id) : storage read with Default for a missing key. -/
def State.getVote (s : State) (id : Nat) : Vote :=
  (s.votesByIndex id).getD defaultVote

/-- Getter for LockBalance with Default for a missing key. -/
def State.getLock (s : State) (k : Nat × Nat) : LockInfo :=
  (s.lockBalance k).getD defaultLockInfo

/-- mint_vote of the source (impl block). -/
def mint_vote (s : State) (sender : Nat) (new_vote : Vote)
    (vote_count_by_sender new_vote_num : Nat) : State × R :=
  if (s.votesByIndex new_vote_num).isSome then
    (s, Except.error "Vote already exists")
  else
    ({ s with
        votesByIndex := upd s.votesByIndex new_vote_num (some new_vote),
        voteCreator := upd s.voteCreator new_vote_num (some sender),
        createdVoteCount := upd s.createdVoteCount sender vote_count_by_sender,
        allVoteCount := new_vote_num,
        voteByCreatorArray := upd s.voteByCreatorArray (sender, new_vote_num) (some new_vote),
        events := s.events ++ [Event.Created sender new_vote_num] },
      Except.ok ())

/-- create_vote of the source. -/
def create_vote (s : State) (sender vote_type exp_length : Nat) (data : List Nat) : State × R :=
  if ¬ data.length ≤ 256 then
    (s, Except.error "listing data cannot be more than 256 bytes")
  else
    match checked_add64 s.allVoteCount 1 with
    | none => (s, Except.error "Overflow adding vote count")
    | some new_vote_num =>
      match checked_add64 (s.createdVoteCount sender) 1 with
      | none => (s, Except.error "Overflow adding vote count to the sender")
      | some vote_count_by_sender =>
        match checked_add64 s.height exp_length with
        | none => (s, Except.error "Overflow when setting application expiry.")
        | some vote_exp =>
          let new_vote : Vote :=
            { id := new_vote_num, creator := sender, when := s.height,
              vote_ends := vote_exp, concluded := false, vote_type := vote_type }
          match mint_vote s sender new_vote vote_count_by_sender new_vote_num with
          | (s1, Except.error e) => (s1, Except.error e)
          | (s1, Except.ok _) =>
            ({ s1 with voteIndexHash := upd s1.voteIndexHash new_vote_num (some data) },
              Except.ok ())

/-- cast_ballot_f of the source (impl block).  In both arms the source
removes the sender from the opposite side on a local copy of that list and
then inserts only the requested side back into storage, so the removal is
never persisted; the dead let bindings mirror that. -/
def cast_ballot_f (s : State) (sender reference_index : Nat) (ballot : Ballot) : State × R :=
  let accounts_aye := s.votedAccounts (reference_index, 0)
  let accounts_nay := s.votedAccounts (reference_index, 1)
  match ballot with
  | Ballot.Aye =>
    if accounts_aye.contains sender then
      (s, Except.error "You have already voted aye.")
    else
      let accounts_nay :=
        if accounts_nay.contains sender then accounts_nay.erase sender else accounts_nay
      let _ := accounts_nay
      let accounts_aye := accounts_aye ++ [sender]
      ({ s with
          votedAccounts := upd s.votedAccounts (reference_index, 0) accounts_aye,
          events := s.events ++ [Event.Voted sender reference_index Ballot.Aye] },
        Except.ok ())
  | Ballot.Nay =>
    if accounts_nay.contains sender then
      (s, Except.error "You have already voted nay.")
    else
      let accounts_aye :=
        if accounts_aye.contains sender then accounts_aye.erase sender else accounts_aye
      let _ := accounts_aye
      let accounts_nay := accounts_nay ++ [sender]
      ({ s with
          votedAccounts := upd s.votedAccounts (reference_index, 1) accounts_nay,
          events := s.events ++ [Event.Voted sender reference_index Ballot.Nay] },
        Except.ok ())

/-- cast_ballot of the source.  Its body past the four ensure checks is the
same code as cast_ballot_f, so the embedding reuses that definition. -/
def cast_ballot (s : State) (sender reference_index : Nat) (ballot : Ballot) : State × R :=
  let vote := s.getVote reference_index
  if ¬ (s.votesByIndex reference_index).isSome then
    (s, Except.error "Vote doesnt exists")
  else if ¬ vote.creator ≠ sender then
    (s, Except.error "You cannot vote your own vote.")
  else if ¬ vote.vote_ends > s.height then
    (s, Except.error "This vote has already been expired.")
  else if ¬ vote.vote_type = 0 then
    (s, Except.error "This vote is LockVote. Use cast_lockvote instead!")
  else
    cast_ballot_f s sender reference_index ballot

/-- cast_lockvote of the source.  The LockBalance mutate and set_lock happen
before the call to cast_ballot_f; dispatch does not roll storage back when
that call fails. -/
def cast_lockvote (s : State) (sender reference_index : Nat) (ballot : Ballot)
    (deposit duration : Nat) : State × R :=
  let vote := s.getVote reference_index
  let now := s.height
  if ¬ wadd64 now duration ≥ vote.vote_ends then
    (s, Except.error "Lock duration should be or bigger than vote expiry.")
  else if (s.lockBalance (reference_index, sender)).isSome then
    (s, Except.error "You cannot lockvote twice.")
  else if ¬ s.freeBalance sender > deposit then
    (s, Except.error "You cannot lock more than your free balance!")
  else if ¬ (s.votesByIndex reference_index).isSome then
    (s, Except.error "Vote doesnt exists")
  else if ¬ vote.creator ≠ sender then
    (s, Except.error "You cannot vote your own vote.")
  else if ¬ vote.vote_ends > now then
    (s, Except.error "This vote has already been expired.")
  else if ¬ vote.vote_type = 1 then
    (s, Except.error "This vote is not LockVote.")
  else
    let prev := s.getLock (reference_index, sender)
    let newLock : LockInfo :=
      { deposit := wadd64 prev.deposit deposit, duration := duration,
        until_ := wadd64 now duration }
    let s1 :=
      { s with
          lockBalance := upd s.lockBalance (reference_index, sender) (some newLock),
          locks := upd s.locks (reference_index, sender) (some deposit) }
    cast_ballot_f s1 sender reference_index ballot

/-- withdraw of the source. -/
def withdraw (s : State) (sender reference_index : Nat) : State × R :=
  let vote := s.getVote reference_index
  if ¬ vote.vote_type = 1 then
    (s, Except.error "This must be lockvote")
  else if ¬ vote.concluded = true then
    (s, Except.error "You have to wait at least until the vote concludes!")
  else if ¬ (s.lockBalance (reference_index, sender)).isSome then
    (s, Except.error "You need to participate lockvoting to call this function!")
  else
    let lock_info := s.getLock (reference_index, sender)
    if ¬ lock_info.until_ < s.height then
      (s, Except.error "You need to wait until the lock period is over!")
    else
      ({ s with
          locks := upd s.locks (reference_index, sender) none,
          lockBalance := upd s.lockBalance (reference_index, sender) none,
          events := s.events ++ [Event.Withdrew sender reference_index] },
        Except.ok ())

/-- Per-account lock-vote weight as computed in the tally of the source:
deposit and duration are saturated into u64, the product is plain wrapping
u64 multiplication. -/
def lockWeight (s : State) (reference_index account : Nat) : Nat :=
  let lock_vote := s.getLock (reference_index, account)
  (sat64 lock_vote.deposit * sat64 lock_vote.duration) % U64

/-- tally of the source (impl block).  For vote_type 1 the source iterates
the side-0 (Aye) list for both accumulators; the second fold below therefore
also runs over side 0, exactly as the code does. -/
def tally (s : State) (reference_index : Nat) : State × R :=
  let vote := s.getVote reference_index
  if vote.vote_type = 0 then
    let aye_count := (s.votedAccounts (reference_index, 0)).length
    let nay_count := (s.votedAccounts (reference_index, 1)).length
    ({ s with voteResults := upd s.voteResults reference_index (some [aye_count, nay_count]) },
      Except.ok ())
  else if vote.vote_type = 1 then
    let aye_count := (s.votedAccounts (reference_index, 0)).foldl
      (fun acc a => wadd64 acc (lockWeight s reference_index a)) 0
    let nay_count := (s.votedAccounts (reference_index, 0)).foldl
      (fun acc a => wadd64 acc (lockWeight s reference_index a)) 0
    ({ s with voteResults := upd s.voteResults reference_index (some [aye_count, nay_count]) },
      Except.ok ())
  else
    (s, Except.error "This vote_type is not covered.")

/-- conclude_vote of the source. -/
def conclude_vote (s : State) (reference_index : Nat) : State × R :=
  let vote := s.getVote reference_index
  if ¬ vote.concluded = false then
    (s, Except.error "This vote has already concluded.")
  else if ¬ s.height > vote.vote_ends then
    (s, Except.error "This vote hasnt been expired yet.")
  else
    match tally s reference_index with
    | (s1, Except.error e) => (s1, Except.error e)
    | (s1, Except.ok _) =>
      ({ s1 with
          votesByIndex := upd s1.votesByIndex reference_index
            (some { s1.getVote reference_index with concluded := true }),
          voteByCreatorArray := upd s1.voteByCreatorArray (vote.creator, reference_index)
            (some { (s1.voteByCreatorArray (vote.creator, reference_index)).getD defaultVote with
                      concluded := true }),
          events := s1.events ++ [Event.Concluded reference_index] },
        Except.ok ())

/-- A dispatched call together with its signed origin and arguments. -/
inductive Action
  | createV (sender vote_type exp_length : Nat) (data : List Nat)
  | ballotV (sender reference_index : Nat) (b : Ballot)
  | lockvoteV (sender reference_index : Nat) (b : Ballot) (deposit duration : Nat)
  | concludeV (reference_index : Nat)
  | withdrawV (sender reference_index : Nat)

/-- Executing an action: the post-state is whatever storage the dispatch
left behind (Substrate does not roll storage back on Err). -/
def applyAction (s : State) : Action → State × R
  | Action.createV sender vt el d => create_vote s sender vt el d
  | Action.ballotV sender ri b => cast_ballot s sender ri b
  | Action.lockvoteV sender ri b dep dur => cast_lockvote s sender ri b dep dur
  | Action.concludeV ri => conclude_vote s ri
  | Action.withdrawV sender ri => withdraw s sender ri

/-- One step of the system: a dispatched call at the current height, a
monotone height advance, or an external change of the free balances. -/
inductive Step : State → State → Prop
  | act (s : State) (a : Action) : Step s (applyAction s a).1
  | advance (s : State) (h : Nat) (hle : s.height ≤ h) : Step s { s with height := h }
  | balances (s : State) (f : Nat → Nat) : Step s { s with freeBalance := f }

/-- Genesis state: empty storage, a given external balance sheet and height. -/
def init (f : Nat → Nat) (h : Nat) : State :=
  { height := h, allVoteCount := 0,
    votesByIndex := fun _ => none,
    voteCreator := fun _ => none,
    createdVoteCount := fun _ => 0,
    voteByCreatorArray := fun _ => none,
    voteResults := fun _ => none,
    voteIndexHash := fun _ => none,
    votedAccounts := fun _ => [],
    lockBalance := fun _ => none,
    lockCount := 0,
    freeBalance := f,
    locks := fun _ => none,
    events := [] }

/-- States the running system can be in. -/
def Reachable (s : State) : Prop :=
  ∃ f h, Relation.ReflTransGen Step (init f h) s

/-- External balance sheet giving every account 100 free tokens. -/
def exBalances : Nat → Nat := fun _ => 100

/-- Lock-vote trace: account 0 creates a LockWeighted vote (id 1, expiry 3)
at height 0; account 1 lock-votes Aye with deposit 10, duration 5; account 2
lock-votes Nay with deposit 4, duration 3; the height then passes expiry. -/
def lv0 : State := init exBalances 0

def lv1 : State := (create_vote lv0 0 1 3 []).1

def lv2 : State := (cast_lockvote lv1 1 1 Ballot.Aye 10 5).1

def lv3 : State := (cast_lockvote lv2 2 1 Ballot.Nay 4 3).1

def lv4 : State := { lv3 with height := 4 }

/-- Side-switch trace: account 0 creates a Simple vote (id 1, expiry 10) at
height 0; account 1 casts Aye and then casts Nay on the same vote. -/
def sw0 : State := init exBalances 0

def sw1 : State := (create_vote sw0 0 0 10 []).1

def sw2 : State := (cast_ballot sw1 1 1 Ballot.Aye).1

def sw3 : State := (cast_ballot sw2 1 1 Ballot.Nay).1

/-- Storage index of the side a ballot selects (0 = Aye, 1 = Nay). -/
def sideNat : Ballot → Nat
  | Ballot.Aye => 0
  | Ballot.Nay => 1

/-- State after the LockBalance mutate and set_lock of cast_lockvote. -/
def lockedState (s : State) (sv ri dep dur : Nat) : State :=
  { s with
      lockBalance := upd s.lockBalance (ri, sv)
        (some { deposit := wadd64 (s.getLock (ri, sv)).deposit dep, duration := dur,
                until_ := wadd64 s.height dur }),
      locks := upd s.locks (ri, sv) (some dep) }

/-- Concrete state for the C6 witness: vote 1 is LockWeighted and concluded,
account 2 holds a lock with until height 3, and the height is 5. -/
def w6 : State :=
  { init exBalances 5 with
      votesByIndex := upd (init exBalances 5).votesByIndex 1
        (some { defaultVote with id := 1, vote_type := 1, concluded := true }),
      lockBalance := upd (init exBalances 5).lockBalance (1, 2)
        (some { deposit := 10, duration := 3, until_ := 3 }) }

/-- Concrete state for the C9 counterexample: vote 7 is LockWeighted,
account 3 sits in its Aye set with a lock of deposit 2^32 and duration
2^32. -/
def c9s : State :=
  { init exBalances 0 with
      votesByIndex := upd (init exBalances 0).votesByIndex 7
        (some { defaultVote with id := 7, vote_type := 1 }),
      votedAccounts := upd (init exBalances 0).votedAccounts (7, 0) [3],
      lockBalance := upd (init exBalances 0).lockBalance (7, 3)
        (some { deposit := 2 ^ 32, duration := 2 ^ 32, until_ := 0 }) }

/-- Concrete state for the C5 witness, early part: vote 1 exists with expiry
10 while the height is only 5. -/
def w5a : State :=
  { init exBalances 5 with
      votesByIndex := upd (init exBalances 5).votesByIndex 1
        (some { defaultVote with id := 1, vote_ends := 10 }) }

/-- Concrete state for the C5 witness, success part: vote 1 exists with
expiry 10 and the height is 11, so conclusion succeeds once. -/
def w5c : State :=
  { init exBalances 11 with
      votesByIndex := upd (init exBalances 11).votesByIndex 1
        (some { defaultVote with id := 1, vote_ends := 10 }) }

/-- Concrete state for the C5 witness, monotonicity part: vote 1 is already
concluded at height 6. -/
def w5b : State :=
  { init exBalances 6 with
      votesByIndex := upd (init exBalances 6).votesByIndex 1
        (some { defaultVote with id := 1, vote_ends := 3, concluded := true }) }

/-- A nonempty voter set always belongs to an existing vote. -/
def SetsVoteExists (s : State) : Prop :=
  ∀ id side, s.votedAccounts (id, side) ≠ [] → (s.votesByIndex id).isSome = true

/-- On a LockWeighted vote, every recorded voter either still holds a
LockInfo or the vote has already expired. -/
def LockMemberInv (s : State) : Prop :=
  ∀ id side a, a ∈ s.votedAccounts (id, side) → (s.getVote id).vote_type = 1 →
    ((s.lockBalance (id, a)).isSome = true ∨ (s.getVote id).vote_ends ≤ s.height)

/-- A concluded vote has its expiry strictly below the current height. -/
def ConcludedExpired (s : State) : Prop :=
  ∀ id, (s.getVote id).concluded = true → (s.getVote id).vote_ends < s.height

/-- Created votes keep both indexed copies identical, with the registered
creator stored in the record. -/
def CreatorIndexInv (s : State) : Prop :=
  ∀ id c, s.voteCreator id = some c →
    ((s.votesByIndex id).isSome = true ∧ (s.getVote id).creator = c ∧
      s.votesByIndex id = s.voteByCreatorArray (c, id))

/-- All reachability invariants bundled. -/
def GoodState (s : State) : Prop :=
  SetsVoteExists s ∧ LockMemberInv s ∧ ConcludedExpired s ∧ CreatorIndexInv s

/-- State reached by account 5 creating one vote from genesis. -/
def c10w : State := (create_vote (init exBalances 0) 5 0 10 []).1

theorem upd_same {α β : Type} [DecidableEq α] (m : α → β) (k : α) (v : β) :
    upd m k v k = v := by
  simp [upd]

theorem upd_ne {α β : Type} [DecidableEq α] (m : α → β) (k x : α) (v : β) (h : x ≠ k) :
    upd m k v x = m x := by
  simp [upd, h]

/-- cast_ballot_f fails (leaving the state unchanged) exactly when the
sender is already recorded on the requested side; otherwise it appends the
sender to the requested side list and emits Voted, touching nothing else. -/
theorem cast_ballot_f_spec (s : State) (sv ri : Nat) (b : Ballot) :
    (sv ∈ s.votedAccounts (ri, sideNat b) ∧ (cast_ballot_f s sv ri b).1 = s ∧
      errOf (cast_ballot_f s sv ri b).2 = true) ∨
    (sv ∉ s.votedAccounts (ri, sideNat b) ∧ (cast_ballot_f s sv ri b).2 = Except.ok () ∧
      (cast_ballot_f s sv ri b).1 =
        { s with
            votedAccounts := upd s.votedAccounts (ri, sideNat b)
              (s.votedAccounts (ri, sideNat b) ++ [sv]),
            events := s.events ++ [Event.Voted sv ri b] }) := by
  cases b <;>
    by_cases hm : sv ∈ s.votedAccounts (ri, sideNat Ballot.Aye) <;>
    by_cases hn : sv ∈ s.votedAccounts (ri, sideNat Ballot.Nay) <;>
    simp_all [cast_ballot_f, sideNat, errOf]

/-- checked_add64 only succeeds with the exact sum. -/
theorem checked_add64_some {a b c : Nat} (h : checked_add64 a b = some c) : c = a + b := by
  unfold checked_add64 at h
  split at h
  · exact (Option.some.inj h).symm
  · exact absurd h (by simp)

/-- cast_ballot either fails leaving the state unchanged, or all four ensure
checks and the not-yet-voted check hold and it appends the sender to the
requested side list and emits Voted. -/
theorem cast_ballot_spec (s : State) (sv ri : Nat) (b : Ballot) :
    ((cast_ballot s sv ri b).1 = s ∧ errOf (cast_ballot s sv ri b).2 = true) ∨
    ((s.votesByIndex ri).isSome ∧ (s.getVote ri).vote_type = 0 ∧
      (s.getVote ri).vote_ends > s.height ∧ (s.getVote ri).creator ≠ sv ∧
      sv ∉ s.votedAccounts (ri, sideNat b) ∧ (cast_ballot s sv ri b).2 = Except.ok () ∧
      (cast_ballot s sv ri b).1 =
        { s with
            votedAccounts := upd s.votedAccounts (ri, sideNat b)
              (s.votedAccounts (ri, sideNat b) ++ [sv]),
            events := s.events ++ [Event.Voted sv ri b] }) := by
  by_cases h1 : (s.votesByIndex ri).isSome
  · by_cases h2 : (s.getVote ri).creator ≠ sv
    · by_cases h3 : (s.getVote ri).vote_ends > s.height
      · by_cases h4 : (s.getVote ri).vote_type = 0
        · have hred : cast_ballot s sv ri b = cast_ballot_f s sv ri b := by
            simp [cast_ballot, h1, h2, h3, h4]
          rw [hred]
          rcases cast_ballot_f_spec s sv ri b with ⟨_, he, he2⟩ | ⟨hm, hok, hst⟩
          · exact Or.inl ⟨he, he2⟩
          · exact Or.inr ⟨h1, h4, h3, h2, hm, hok, hst⟩
        · left; simp [cast_ballot, h1, h2, h3, h4, errOf]
      · left; simp [cast_ballot, h1, h2, h3, errOf]
    · left; simp [cast_ballot, h1, h2, errOf]
  · left; simp [cast_ballot, h1, errOf]

/-- withdraw either fails leaving the state unchanged, or all four ensure
checks hold and it removes the currency lock and the LockInfo and emits
Withdrew. -/
theorem withdraw_spec (s : State) (sv ri : Nat) :
    ((withdraw s sv ri).1 = s ∧ errOf (withdraw s sv ri).2 = true) ∨
    ((s.getVote ri).vote_type = 1 ∧ (s.getVote ri).concluded = true ∧
      (s.lockBalance (ri, sv)).isSome ∧ (s.getLock (ri, sv)).until_ < s.height ∧
      (withdraw s sv ri).2 = Except.ok () ∧
      (withdraw s sv ri).1 =
        { s with
            locks := upd s.locks (ri, sv) none,
            lockBalance := upd s.lockBalance (ri, sv) none,
            events := s.events ++ [Event.Withdrew sv ri] }) := by
  by_cases h1 : (s.getVote ri).vote_type = 1
  · by_cases h2 : (s.getVote ri).concluded = true
    · by_cases h3 : (s.lockBalance (ri, sv)).isSome
      · by_cases h4 : (s.getLock (ri, sv)).until_ < s.height
        · right
          exact ⟨h1, h2, h3, h4, by simp [withdraw, h1, h2, h3, h4],
            by simp [withdraw, h1, h2, h3, h4]⟩
        · left; simp [withdraw, h1, h2, h3, h4, errOf]
      · left; simp [withdraw, h1, h2, h3, errOf]
    · left; simp [withdraw, h1, h2, errOf]
  · left; simp [withdraw, h1, errOf]

/-- create_vote either fails leaving the state unchanged, or inserts a fresh
unconcluded VoteRecord (same record in both indexes), registers the creator,
bumps the counters, stores the payload hash and emits Created. -/
theorem create_vote_spec (s : State) (sv vt el : Nat) (d : List Nat) :
    ((create_vote s sv vt el d).1 = s ∧ errOf (create_vote s sv vt el d).2 = true) ∨
    (∃ nv : Vote, nv.creator = sv ∧ nv.concluded = false ∧
      s.votesByIndex (s.allVoteCount + 1) = none ∧
      (create_vote s sv vt el d).2 = Except.ok () ∧
      (create_vote s sv vt el d).1 =
        { s with
            votesByIndex := upd s.votesByIndex (s.allVoteCount + 1) (some nv),
            voteCreator := upd s.voteCreator (s.allVoteCount + 1) (some sv),
            createdVoteCount := upd s.createdVoteCount sv (s.createdVoteCount sv + 1),
            allVoteCount := s.allVoteCount + 1,
            voteByCreatorArray := upd s.voteByCreatorArray (sv, s.allVoteCount + 1) (some nv),
            voteIndexHash := upd s.voteIndexHash (s.allVoteCount + 1) (some d),
            events := s.events ++ [Event.Created sv (s.allVoteCount + 1)] }) := by
  by_cases hd : d.length ≤ 256
  · cases hc1 : checked_add64 s.allVoteCount 1 with
    | none => left; simp [create_vote, hd, hc1, errOf]
    | some n =>
      cases hc2 : checked_add64 (s.createdVoteCount sv) 1 with
      | none => left; simp [create_vote, hd, hc1, hc2, errOf]
      | some m =>
        cases hc3 : checked_add64 s.height el with
        | none => left; simp [create_vote, hd, hc1, hc2, hc3, errOf]
        | some ex =>
          have hn : n = s.allVoteCount + 1 := checked_add64_some hc1
          have hm : m = s.createdVoteCount sv + 1 := checked_add64_some hc2
          by_cases hex : (s.votesByIndex n).isSome
          · left; simp [create_vote, mint_vote, hd, hc1, hc2, hc3, hex, errOf]
          · right
            refine ⟨{ id := n, creator := sv, when := s.height, vote_ends := ex,
                      concluded := false, vote_type := vt }, rfl, rfl, ?_, ?_, ?_⟩
            · rw [← hn]
              exact Option.not_isSome_iff_eq_none.mp hex
            · simp [create_vote, mint_vote, hd, hc1, hc2, hc3, hex]
            · subst hn hm
              simp [create_vote, mint_vote, hd, hc1, hc2, hc3, hex]
  · left; simp [create_vote, hd, errOf]

/-- cast_lockvote either fails in one of its seven ensure checks leaving the
state unchanged, or all checks hold and it behaves as cast_ballot_f run on
the state with the LockInfo written and the currency lock placed. -/
theorem cast_lockvote_spec (s : State) (sv ri : Nat) (b : Ballot) (dep dur : Nat) :
    ((cast_lockvote s sv ri b dep dur).1 = s ∧
      errOf (cast_lockvote s sv ri b dep dur).2 = true) ∨
    (s.lockBalance (ri, sv) = none ∧ (s.votesByIndex ri).isSome ∧
      (s.getVote ri).vote_type = 1 ∧ (s.getVote ri).vote_ends > s.height ∧
      s.freeBalance sv > dep ∧ (s.getVote ri).creator ≠ sv ∧
      wadd64 s.height dur ≥ (s.getVote ri).vote_ends ∧
      cast_lockvote s sv ri b dep dur = cast_ballot_f (lockedState s sv ri dep dur) sv ri b) := by
  by_cases h1 : wadd64 s.height dur ≥ (s.getVote ri).vote_ends
  · by_cases h2 : (s.lockBalance (ri, sv)).isSome
    · left; simp [cast_lockvote, h1, h2, errOf]
    · by_cases h3 : s.freeBalance sv > dep
      · by_cases h4 : (s.votesByIndex ri).isSome
        · by_cases h5 : (s.getVote ri).creator ≠ sv
          · by_cases h6 : (s.getVote ri).vote_ends > s.height
            · by_cases h7 : (s.getVote ri).vote_type = 1
              · right
                refine ⟨Option.not_isSome_iff_eq_none.mp h2, h4, h7, h6, h3, h5, h1, ?_⟩
                simp [cast_lockvote, lockedState, h1, h2, h3, h4, h5, h6, h7]
              · left; simp [cast_lockvote, h1, h2, h3, h4, h5, h6, h7, errOf]
            · left; simp [cast_lockvote, h1, h2, h3, h4, h5, h6, errOf]
          · left; simp [cast_lockvote, h1, h2, h3, h4, h5, errOf]
        · left; simp [cast_lockvote, h1, h2, h3, h4, errOf]
      · left; simp [cast_lockvote, h1, h2, h3, errOf]
  · left; simp [cast_lockvote, h1, errOf]

/-- conclude_vote either fails leaving the state unchanged, or the vote was
unconcluded with its expiry passed, and conclusion persists a tally result,
marks both stored copies concluded and emits Concluded. -/
theorem conclude_vote_spec (s : State) (ri : Nat) :
    ((conclude_vote s ri).1 = s ∧ errOf (conclude_vote s ri).2 = true) ∨
    ((s.getVote ri).concluded = false ∧ s.height > (s.getVote ri).vote_ends ∧
      (conclude_vote s ri).2 = Except.ok () ∧
      ∃ res : List Nat,
        (conclude_vote s ri).1 =
          { s with
              voteResults := upd s.voteResults ri (some res),
              votesByIndex := upd s.votesByIndex ri
                (some { s.getVote ri with concluded := true }),
              voteByCreatorArray := upd s.voteByCreatorArray ((s.getVote ri).creator, ri)
                (some { (s.voteByCreatorArray ((s.getVote ri).creator, ri)).getD defaultVote
                          with concluded := true }),
              events := s.events ++ [Event.Concluded ri] }) := by
  by_cases h1 : (s.getVote ri).concluded = false
  · by_cases h2 : s.height > (s.getVote ri).vote_ends
    · by_cases t0 : (s.getVote ri).vote_type = 0
      · right
        refine ⟨h1, h2, ?_, ⟨[(s.votedAccounts (ri, 0)).length, (s.votedAccounts (ri, 1)).length],
          ?_⟩⟩
        · simp [conclude_vote, tally, h1, h2, t0]
        · simp only [State.getVote] at h1 h2 t0 ⊢
          simp [conclude_vote, tally, State.getVote, h1, h2, t0]
      · by_cases t1 : (s.getVote ri).vote_type = 1
        · right
          refine ⟨h1, h2, ?_, ⟨[(s.votedAccounts (ri, 0)).foldl
              (fun acc a => wadd64 acc (lockWeight s ri a)) 0,
            (s.votedAccounts (ri, 0)).foldl
              (fun acc a => wadd64 acc (lockWeight s ri a)) 0], ?_⟩⟩
          · simp [conclude_vote, tally, h1, h2, t0, t1]
          · simp only [State.getVote] at h1 h2 t0 t1 ⊢
            simp [conclude_vote, tally, State.getVote, lockWeight, h1, h2, t0, t1]
        · left; simp [conclude_vote, tally, h1, h2, t0, t1, errOf]
    · left; simp [conclude_vote, h1, h2, errOf]
  · left; simp [conclude_vote, h1, errOf]

/-- C6: withdraw succeeds exactly when the vote is LockWeighted, concluded,
a LockInfo exists for (vote, voter) and the current height is strictly past
its until height; success removes the currency lock and the LockInfo and
emits Withdrew, and an immediately repeated withdraw for the same pair
fails. -/
theorem C6_withdraw_release_gating (s : State) (sv ri : Nat) :
    ((withdraw s sv ri).2 = Except.ok () ↔
      ((s.getVote ri).vote_type = 1 ∧ (s.getVote ri).concluded = true ∧
        (s.lockBalance (ri, sv)).isSome ∧ (s.getLock (ri, sv)).until_ < s.height)) ∧
    ((withdraw s sv ri).2 = Except.ok () →
      ((withdraw s sv ri).1.locks (ri, sv) = none ∧
        (withdraw s sv ri).1.lockBalance (ri, sv) = none ∧
        (withdraw s sv ri).1.events = s.events ++ [Event.Withdrew sv ri] ∧
        errOf (withdraw (withdraw s sv ri).1 sv ri).2 = true)) := by
  constructor
  · constructor
    · intro hok
      rcases withdraw_spec s sv ri with ⟨_, he⟩ | ⟨h1, h2, h3, h4, _, _⟩
      · rw [hok] at he; simp [errOf] at he
      · exact ⟨h1, h2, h3, h4⟩
    · rintro ⟨c1, c2, c3, c4⟩
      simp [withdraw, c1, c2, c3, c4]
  · intro hok
    rcases withdraw_spec s sv ri with ⟨_, he⟩ | ⟨h1, h2, _, _, _, hst⟩
    · rw [hok] at he; simp [errOf] at he
    · rw [hst]
      simp only [State.getVote, State.getLock] at h1 h2 ⊢
      refine ⟨?_, ?_, ?_, ?_⟩
      · simp [upd_same]
      · simp [upd_same]
      · trivial
      · simp [withdraw, State.getVote, State.getLock, upd_same, h1, h2, errOf]

/-- Witness for C6 at a concrete state: the withdraw succeeds, deletes the
LockInfo, and the repeated withdraw fails. -/
theorem C6_withdraw_release_gating_witness :
    (withdraw w6 2 1).2 = Except.ok () ∧
    (withdraw w6 2 1).1.lockBalance (1, 2) = none ∧
    (withdraw w6 2 1).1.locks (1, 2) = none ∧
    errOf (withdraw (withdraw w6 2 1).1 2 1).2 = true := by
  have h := C6_withdraw_release_gating w6 2 1
  have hok : (withdraw w6 2 1).2 = Except.ok () :=
    h.1.mpr ⟨by decide, by decide, by decide, by decide⟩
  exact ⟨hok, (h.2 hok).2.1, (h.2 hok).1, (h.2 hok).2.2.2⟩

/-- C8: cast_lockvote fails when a LockInfo already exists for the pair,
when the deposit is not strictly below the free balance, or when
current height + duration falls short of the expiry height; when every
precondition holds (existing LockWeighted vote, non-creator, before expiry,
enough balance, covering duration, not yet on the requested side) it records
LockInfo with until = current height + duration and places the currency
lock of the deposit. -/
theorem C8_cast_lockvote_preconditions (s : State) (sv ri : Nat) (b : Ballot) (dep dur : Nat) :
    ((s.lockBalance (ri, sv)).isSome → errOf (cast_lockvote s sv ri b dep dur).2 = true) ∧
    (s.freeBalance sv ≤ dep → errOf (cast_lockvote s sv ri b dep dur).2 = true) ∧
    (s.height + dur < (s.getVote ri).vote_ends →
      errOf (cast_lockvote s sv ri b dep dur).2 = true) ∧
    ((s.votesByIndex ri).isSome → (s.getVote ri).vote_type = 1 →
      (s.getVote ri).creator ≠ sv → s.height < (s.getVote ri).vote_ends →
      s.lockBalance (ri, sv) = none → dep < s.freeBalance sv →
      (s.getVote ri).vote_ends ≤ s.height + dur → s.height + dur < U64 → dep < U64 →
      sv ∉ s.votedAccounts (ri, sideNat b) →
      ((cast_lockvote s sv ri b dep dur).2 = Except.ok () ∧
        (cast_lockvote s sv ri b dep dur).1.lockBalance (ri, sv) =
          some { deposit := dep, duration := dur, until_ := s.height + dur } ∧
        (cast_lockvote s sv ri b dep dur).1.locks (ri, sv) = some dep)) := by
  refine ⟨?_, ?_, ?_, ?_⟩
  · intro h
    rcases cast_lockvote_spec s sv ri b dep dur with ⟨_, he⟩ | ⟨hn, _⟩
    · exact he
    · rw [hn] at h; simp at h
  · intro h
    rcases cast_lockvote_spec s sv ri b dep dur with ⟨_, he⟩ | ⟨_, _, _, _, hf, _⟩
    · exact he
    · omega
  · intro h
    rcases cast_lockvote_spec s sv ri b dep dur with ⟨_, he⟩ | ⟨_, _, _, _, _, _, hge, _⟩
    · exact he
    · have hle : wadd64 s.height dur ≤ s.height + dur := Nat.mod_le _ _
      omega
  · intro hex hty hcr hbe hnone hfree hcov hU hdep hmem
    have hw : wadd64 s.height dur = s.height + dur := Nat.mod_eq_of_lt hU
    have hred : cast_lockvote s sv ri b dep dur =
        cast_ballot_f (lockedState s sv ri dep dur) sv ri b := by
      have hg1 : wadd64 s.height dur ≥ (s.getVote ri).vote_ends := by omega
      have hg2 : ¬ (s.lockBalance (ri, sv)).isSome = true := by simp [hnone]
      simp [cast_lockvote, lockedState, hg1, hg2, hfree, hex, hcr, hbe, hty]
    rcases cast_ballot_f_spec (lockedState s sv ri dep dur) sv ri b with
      ⟨hm, _, _⟩ | ⟨_, hok2, hst2⟩
    · exact absurd (by simpa [lockedState] using hm) hmem
    · refine ⟨?_, ?_, ?_⟩
      · rw [hred]; exact hok2
      · rw [hred, hst2]
        simp [lockedState, upd_same, State.getLock, hnone, wadd64, defaultLockInfo,
          Nat.mod_eq_of_lt hdep, Nat.mod_eq_of_lt hU]
      · rw [hred, hst2]
        simp [lockedState, upd_same]

/-- Witness for C8 at a concrete trace: on the freshly created LockWeighted
vote, account 1 lock-votes Aye with deposit 10 and duration 5 at height 0,
which succeeds, stores LockInfo (10, 5, until 5) and locks 10 tokens. -/
theorem C8_cast_lockvote_preconditions_witness :
    (cast_lockvote lv1 1 1 Ballot.Aye 10 5).2 = Except.ok () ∧
    (cast_lockvote lv1 1 1 Ballot.Aye 10 5).1.lockBalance (1, 1) =
      some { deposit := 10, duration := 5, until_ := 5 } ∧
    (cast_lockvote lv1 1 1 Ballot.Aye 10 5).1.locks (1, 1) = some 10 :=
  (C8_cast_lockvote_preconditions lv1 1 1 Ballot.Aye 10 5).2.2.2
    (by decide) (by decide) (by decide) (by decide) (by decide)
    (by decide) (by decide) (by decide) (by decide) (by decide)

/-- Folding wrapping u64 addition equals plain summation while the total
stays below 2^64. -/
theorem foldl_wadd64_eq_sum (l : List Nat) (acc : Nat) (h : acc + l.sum < U64) :
    l.foldl (fun a x => wadd64 a x) acc = acc + l.sum := by
  induction l generalizing acc with
  | nil => simp
  | cons x xs ih =>
    simp only [List.foldl_cons, List.sum_cons] at *
    have hax : acc + x < U64 := by omega
    have hw : wadd64 acc x = acc + x := Nat.mod_eq_of_lt hax
    rw [hw, ih (acc + x) (by omega)]
    omega

/-- C9 (amended): deposit and duration are saturated into u64 individually,
but the per-account product is plain u64 multiplication that wraps; in the
overflow-free regime (every stored factor a u64 value and the Aye-side sum
of products below 2^64) the LockWeighted tally succeeds and stores the
exact sum of deposit times duration (for both entries of the result, since
both accumulators run over the Aye list). -/
theorem C9_lockweight_exact_when_no_overflow (s : State) (ri : Nat)
    (hty : (s.getVote ri).vote_type = 1)
    (hb : ∀ a ∈ s.votedAccounts (ri, 0),
      (s.getLock (ri, a)).deposit < U64 ∧ (s.getLock (ri, a)).duration < U64)
    (hsum : ((s.votedAccounts (ri, 0)).map
        (fun a => (s.getLock (ri, a)).deposit * (s.getLock (ri, a)).duration)).sum < U64) :
    (tally s ri).2 = Except.ok () ∧
    (tally s ri).1.voteResults ri =
      some [((s.votedAccounts (ri, 0)).map
          (fun a => (s.getLock (ri, a)).deposit * (s.getLock (ri, a)).duration)).sum,
        ((s.votedAccounts (ri, 0)).map
          (fun a => (s.getLock (ri, a)).deposit * (s.getLock (ri, a)).duration)).sum] := by
  have hty0 : ¬ (s.getVote ri).vote_type = 0 := by omega
  have hweq : ∀ a ∈ s.votedAccounts (ri, 0),
      lockWeight s ri a = (s.getLock (ri, a)).deposit * (s.getLock (ri, a)).duration := by
    intro a ha
    obtain ⟨hd, hr⟩ := hb a ha
    have hprod : (s.getLock (ri, a)).deposit * (s.getLock (ri, a)).duration ≤
        ((s.votedAccounts (ri, 0)).map
          (fun x => (s.getLock (ri, x)).deposit * (s.getLock (ri, x)).duration)).sum :=
      List.single_le_sum (fun y _ => Nat.zero_le y) _ (List.mem_map_of_mem _ ha)
    have hsd : sat64 (s.getLock (ri, a)).deposit = (s.getLock (ri, a)).deposit :=
      min_eq_left (by omega)
    have hsr : sat64 (s.getLock (ri, a)).duration = (s.getLock (ri, a)).duration :=
      min_eq_left (by omega)
    simp only [lockWeight, hsd, hsr]
    exact Nat.mod_eq_of_lt (by omega)
  have hfold : (s.votedAccounts (ri, 0)).foldl
      (fun acc a => wadd64 acc (lockWeight s ri a)) 0 =
      ((s.votedAccounts (ri, 0)).map
        (fun a => (s.getLock (ri, a)).deposit * (s.getLock (ri, a)).duration)).sum := by
    rw [← List.foldl_map (lockWeight s ri) (fun a x => wadd64 a x),
      List.map_congr_left hweq]
    exact (foldl_wadd64_eq_sum _ 0 (by omega)).trans (Nat.zero_add _)
  constructor
  · simp [tally, hty, hty0]
  · simp [tally, hty, hty0, hfold, upd_same]

/-- Witness for the amended C9 on the concrete lock-vote trace: the tally at
the concluded height stores exactly [50, 50]. -/
theorem C9_lockweight_exact_when_no_overflow_witness :
    (tally lv4 1).2 = Except.ok () ∧ (tally lv4 1).1.voteResults 1 = some [50, 50] := by
  have h := C9_lockweight_exact_when_no_overflow lv4 1 (by decide) (by decide) (by decide)
  refine ⟨h.1, ?_⟩
  rw [h.2]
  rfl

/-- C9 (counterexample to the claim as stated): with a stored deposit and
duration of 2^32 each, the per-account weight computed by tally is
(2^32 * 2^32) mod 2^64 = 0 - the product wraps - and tally succeeds storing
[0, 0], while a saturating multiplication would have produced 2^64 - 1. -/
theorem C9_product_wraps_counterexample :
    (tally c9s 7).2 = Except.ok () ∧
    (tally c9s 7).1.voteResults 7 = some [0, 0] ∧
    sat64 ((c9s.getLock (7, 3)).deposit * (c9s.getLock (7, 3)).duration) = U64 - 1 ∧
    (0 : Nat) ≠ U64 - 1 :=
  ⟨rfl, rfl, by decide, by decide⟩

/-- No step of the system ever resets a stored concluded flag to false. -/
theorem step_concluded_mono {s s2 : State} (hst : Step s s2) (id : Nat)
    (h : (s.getVote id).concluded = true) : (s2.getVote id).concluded = true := by
  cases hst with
  | advance _ _ => exact h
  | balances _ => exact h
  | act a =>
    cases a with
    | createV sv vt el d =>
      show (((create_vote s sv vt el d).1).getVote id).concluded = true
      rcases create_vote_spec s sv vt el d with ⟨hs, _⟩ | ⟨nv, _, _, hnone, _, hs⟩
      · rw [hs]; exact h
      · rw [hs]
        by_cases hid : id = s.allVoteCount + 1
        · subst hid
          simp [State.getVote, hnone, defaultVote] at h
        · simpa [State.getVote, upd_ne _ _ _ _ hid] using h
    | ballotV sv ri b =>
      show (((cast_ballot s sv ri b).1).getVote id).concluded = true
      rcases cast_ballot_spec s sv ri b with ⟨hs, _⟩ | ⟨_, _, _, _, _, _, hs⟩
      · rw [hs]; exact h
      · rw [hs]; exact h
    | lockvoteV sv ri b dep dur =>
      show (((cast_lockvote s sv ri b dep dur).1).getVote id).concluded = true
      rcases cast_lockvote_spec s sv ri b dep dur with ⟨hs, _⟩ | ⟨_, _, _, _, _, _, _, heq⟩
      · rw [hs]; exact h
      · rw [congrArg Prod.fst heq]
        rcases cast_ballot_f_spec (lockedState s sv ri dep dur) sv ri b with
          ⟨_, hs1, _⟩ | ⟨_, _, hs1⟩
        · rw [hs1]; exact h
        · rw [hs1]; exact h
    | concludeV ri =>
      show (((conclude_vote s ri).1).getVote id).concluded = true
      rcases conclude_vote_spec s ri with ⟨hs, _⟩ | ⟨_, _, _, res, hs⟩
      · rw [hs]; exact h
      · rw [hs]
        by_cases hid : id = ri
        · subst hid; simp [State.getVote, upd_same]
        · simpa [State.getVote, upd_ne _ _ _ _ hid] using h
    | withdrawV sv ri =>
      show (((withdraw s sv ri).1).getVote id).concluded = true
      rcases withdraw_spec s sv ri with ⟨hs, _⟩ | ⟨_, _, _, _, _, hs⟩
      · rw [hs]; exact h
      · rw [hs]; exact h

/-- Along any run of steps a concluded vote stays concluded. -/
theorem rtg_concluded_mono {s s2 : State} (hst : Relation.ReflTransGen Step s s2) (id : Nat)
    (h : (s.getVote id).concluded = true) : (s2.getVote id).concluded = true := by
  induction hst with
  | refl => exact h
  | tail _ hstep ih => exact step_concluded_mono hstep id ih

/-- C5: conclude_vote fails on an existing vote whenever the height is not
strictly past the expiry; after a successful conclusion, every later
conclude_vote on the same id fails along any continuation of the run; and
no single step ever resets a concluded flag to false. -/
theorem C5_conclusion_is_terminal (s : State) (ri : Nat) :
    (((s.votesByIndex ri).isSome ∧ s.height ≤ (s.getVote ri).vote_ends) →
      errOf (conclude_vote s ri).2 = true) ∧
    ((conclude_vote s ri).2 = Except.ok () →
      ∀ s2, Relation.ReflTransGen Step (conclude_vote s ri).1 s2 →
        errOf (conclude_vote s2 ri).2 = true) ∧
    (∀ s2, Step s s2 → (s.getVote ri).concluded = true →
      (s2.getVote ri).concluded = true) := by
  refine ⟨?_, ?_, ?_⟩
  · rintro ⟨_, hle⟩
    rcases conclude_vote_spec s ri with ⟨_, he⟩ | ⟨_, hgt, _, _⟩
    · exact he
    · omega
  · intro hok s2 hrtg
    have hc : ((conclude_vote s ri).1.getVote ri).concluded = true := by
      rcases conclude_vote_spec s ri with ⟨_, he⟩ | ⟨_, _, _, res, hs⟩
      · rw [hok] at he; simp [errOf] at he
      · rw [hs]; simp [State.getVote, upd_same]
    have hc2 : (s2.getVote ri).concluded = true := rtg_concluded_mono hrtg ri hc
    rcases conclude_vote_spec s2 ri with ⟨_, he⟩ | ⟨hcf, _, _, _⟩
    · exact he
    · rw [hc2] at hcf; simp at hcf
  · intro s2 hstep hc
    exact step_concluded_mono hstep ri hc

/-- Witness for C5 at concrete states: concluding before expiry fails,
reconcluding immediately after a successful conclusion fails, and a height
advance keeps the concluded flag set. -/
theorem C5_conclusion_is_terminal_witness :
    errOf (conclude_vote w5a 1).2 = true ∧
    errOf (conclude_vote (conclude_vote w5c 1).1 1).2 = true ∧
    (({ w5b with height := 7 } : State).getVote 1).concluded = true := by
  have h1 := (C5_conclusion_is_terminal w5a 1).1 ⟨by decide, by decide⟩
  have hok : (conclude_vote w5c 1).2 = Except.ok () := rfl
  have h2 := (C5_conclusion_is_terminal w5c 1).2.1 hok (conclude_vote w5c 1).1
    Relation.ReflTransGen.refl
  have h3 := (C5_conclusion_is_terminal w5b 1).2.2 { w5b with height := 7 }
    (Step.advance w5b 7 (by decide)) (by decide)
  exact ⟨h1, h2, h3⟩

/-- The genesis state satisfies the invariants. -/
theorem good_init (f : Nat → Nat) (h : Nat) : GoodState (init f h) := by
  refine ⟨?_, ?_, ?_, ?_⟩
  · intro id side hne; simp [init] at hne
  · intro id side a ha; simp [init] at ha
  · intro id hc; simp [init, State.getVote, defaultVote] at hc
  · intro id c hcr; simp [init] at hcr

/-- Height advances preserve the invariants. -/
theorem good_advance (s : State) (h : Nat) (hle : s.height ≤ h) (hg : GoodState s) :
    GoodState { s with height := h } := by
  obtain ⟨h1, h2, h3, h4⟩ := hg
  refine ⟨?_, ?_, ?_, ?_⟩
  · intro id side hne; exact h1 id side hne
  · intro id side a ha hty
    rcases h2 id side a ha hty with hl | he
    · exact Or.inl hl
    · right
      show (s.getVote id).vote_ends ≤ h
      omega
  · intro id hc
    have := h3 id hc
    show (s.getVote id).vote_ends < h
    omega
  · intro id c hcr; exact h4 id c hcr

/-- External balance changes preserve the invariants. -/
theorem good_balances (s : State) (f : Nat → Nat) (hg : GoodState s) :
    GoodState { s with freeBalance := f } := by
  obtain ⟨h1, h2, h3, h4⟩ := hg
  exact ⟨fun id side hne => h1 id side hne, fun id side a ha hty => h2 id side a ha hty,
    fun id hc => h3 id hc, fun id c hcr => h4 id c hcr⟩

/-- create_vote preserves the invariants. -/
theorem good_create (s : State) (sv vt el : Nat) (d : List Nat) (hg : GoodState s) :
    GoodState ((create_vote s sv vt el d).1) := by
  obtain ⟨h1, h2, h3, h4⟩ := hg
  rcases create_vote_spec s sv vt el d with ⟨hs, _⟩ | ⟨nv, hcr, hcf, hnone, _, hs⟩
  · rw [hs]; exact ⟨h1, h2, h3, h4⟩
  · rw [hs]
    have hemp : ∀ side, s.votedAccounts (s.allVoteCount + 1, side) = [] := by
      intro side
      by_contra hne
      have hq := h1 _ _ hne
      rw [hnone] at hq
      simp at hq
    refine ⟨?_, ?_, ?_, ?_⟩
    · intro id side hne
      by_cases hid : id = s.allVoteCount + 1
      · subst hid; simp [upd_same]
      · simp only [upd_ne _ _ _ _ hid]
        exact h1 id side hne
    · intro id side a ha hty
      by_cases hid : id = s.allVoteCount + 1
      · subst hid
        have ha' : a ∈ s.votedAccounts (s.allVoteCount + 1, side) := ha
        rw [hemp side] at ha'
        simp at ha'
      · simp only [State.getVote, upd_ne _ _ _ _ hid] at hty ⊢
        exact h2 id side a ha hty
    · intro id hc
      by_cases hid : id = s.allVoteCount + 1
      · subst hid
        simp only [State.getVote, upd_same, Option.getD_some] at hc
        rw [hcf] at hc
        simp at hc
      · simp only [State.getVote, upd_ne _ _ _ _ hid] at hc ⊢
        exact h3 id hc
    · intro id c hc
      by_cases hid : id = s.allVoteCount + 1
      · subst hid
        simp only [upd_same] at hc
        have hcsv : c = sv := by
          have := Option.some.inj hc
          omega
        subst hcsv
        refine ⟨by simp [upd_same], ?_, ?_⟩
        · simp only [State.getVote, upd_same]
          simpa using hcr
        · simp [upd_same]
      · simp only [upd_ne _ _ _ _ hid] at hc
        obtain ⟨ha, hb, hcq⟩ := h4 id c hc
        refine ⟨?_, ?_, ?_⟩
        · simpa [upd_ne _ _ _ _ hid] using ha
        · simp only [State.getVote, upd_ne _ _ _ _ hid]
          exact hb
        · have hkey : (c, id) ≠ (sv, s.allVoteCount + 1) := by
            intro hpair
            exact hid (congrArg Prod.snd hpair)
          simp only [upd_ne _ _ _ _ hid, upd_ne _ _ _ _ hkey]
          exact hcq

/-- cast_ballot preserves the invariants. -/
theorem good_ballot (s : State) (sv ri : Nat) (b : Ballot) (hg : GoodState s) :
    GoodState ((cast_ballot s sv ri b).1) := by
  obtain ⟨h1, h2, h3, h4⟩ := hg
  rcases cast_ballot_spec s sv ri b with ⟨hs, _⟩ | ⟨hex, hty0, _, _, _, _, hs⟩
  · rw [hs]; exact ⟨h1, h2, h3, h4⟩
  · rw [hs]
    refine ⟨?_, ?_, ?_, ?_⟩
    · intro id side hne
      by_cases hk : (id, side) = (ri, sideNat b)
      · have hid : id = ri := congrArg Prod.fst hk
        subst hid
        exact hex
      · have hne' : s.votedAccounts (id, side) ≠ [] := by
          simpa [upd_ne _ _ _ _ hk] using hne
        exact h1 id side hne'
    · intro id side a ha hty
      by_cases hid : id = ri
      · subst hid
        have hty' : (s.getVote id).vote_type = 1 := hty
        rw [hty0] at hty'
        simp at hty'
      · have hk : (id, side) ≠ (ri, sideNat b) := fun hp => hid (congrArg Prod.fst hp)
        have ha' : a ∈ s.votedAccounts (id, side) := by
          simpa [upd_ne _ _ _ _ hk] using ha
        exact h2 id side a ha' hty
    · intro id hc
      exact h3 id hc
    · intro id c hcq
      exact h4 id c hcq

/-- cast_lockvote preserves the invariants. -/
theorem good_lockvote (s : State) (sv ri : Nat) (b : Ballot) (dep dur : Nat) (hg : GoodState s) :
    GoodState ((cast_lockvote s sv ri b dep dur).1) := by
  obtain ⟨h1, h2, h3, h4⟩ := hg
  rcases cast_lockvote_spec s sv ri b dep dur with ⟨hs, _⟩ | ⟨hnone, hex, hty1, hbe, _, _, _, heq⟩
  · rw [hs]; exact ⟨h1, h2, h3, h4⟩
  · rw [congrArg Prod.fst heq]
    have hlb : ∀ k, (s.lockBalance k).isSome = true →
        ((lockedState s sv ri dep dur).lockBalance k).isSome = true := by
      intro k hk
      by_cases hkk : k = (ri, sv)
      · subst hkk; simp [lockedState, upd_same]
      · simpa [lockedState, upd_ne _ _ _ _ hkk] using hk
    rcases cast_ballot_f_spec (lockedState s sv ri dep dur) sv ri b with
      ⟨_, hs1, _⟩ | ⟨_, _, hs1⟩
    · rw [hs1]
      refine ⟨?_, ?_, ?_, ?_⟩
      · intro id side hne; exact h1 id side hne
      · intro id side a ha hty
        rcases h2 id side a ha hty with hl | he
        · exact Or.inl (hlb _ hl)
        · exact Or.inr he
      · intro id hc; exact h3 id hc
      · intro id c hcq; exact h4 id c hcq
    · rw [hs1]
      refine ⟨?_, ?_, ?_, ?_⟩
      · intro id side hne
        by_cases hk : (id, side) = (ri, sideNat b)
        · have hid : id = ri := congrArg Prod.fst hk
          subst hid
          exact hex
        · have hne' : s.votedAccounts (id, side) ≠ [] := by
            simpa [lockedState, upd_ne _ _ _ _ hk] using hne
          exact h1 id side hne'
      · intro id side a ha hty
        have hty' : (s.getVote id).vote_type = 1 := hty
        by_cases hk : (id, side) = (ri, sideNat b)
        · have hid : id = ri := congrArg Prod.fst hk
          subst hid
          have hside : side = sideNat b := congrArg Prod.snd hk
          subst hside
          have ha' : a ∈ s.votedAccounts (id, sideNat b) ++ [sv] := by
            simpa [lockedState, upd_same] using ha
          rcases List.mem_append.mp ha' with hin | hsv
          · rcases h2 id (sideNat b) a hin hty' with hl | he
            · exact Or.inl (hlb _ hl)
            · exact Or.inr he
          · have hasv : a = sv := by simpa using hsv
            subst hasv
            left
            simp [lockedState, upd_same]
        · have ha' : a ∈ s.votedAccounts (id, side) := by
            simpa [lockedState, upd_ne _ _ _ _ hk] using ha
          rcases h2 id side a ha' hty' with hl | he
          · exact Or.inl (hlb _ hl)
          · exact Or.inr he
      · intro id hc; exact h3 id hc
      · intro id c hcq; exact h4 id c hcq

/-- conclude_vote preserves the invariants. -/
theorem good_conclude (s : State) (ri : Nat) (hg : GoodState s) :
    GoodState ((conclude_vote s ri).1) := by
  obtain ⟨h1, h2, h3, h4⟩ := hg
  rcases conclude_vote_spec s ri with ⟨hs, _⟩ | ⟨hconcl, hgt, _, res, hs⟩
  · rw [hs]; exact ⟨h1, h2, h3, h4⟩
  · rw [hs]
    refine ⟨?_, ?_, ?_, ?_⟩
    · intro id side hne
      by_cases hid : id = ri
      · subst hid; simp [upd_same]
      · simp only [upd_ne _ _ _ _ hid]
        exact h1 id side hne
    · intro id side a ha hty
      by_cases hid : id = ri
      · subst hid
        have hty' : (s.getVote id).vote_type = 1 := by
          simpa [State.getVote, upd_same] using hty
        rcases h2 id side a ha hty' with hl | he
        · exact Or.inl hl
        · right
          simpa [State.getVote, upd_same] using he
      · have hty' : (s.getVote id).vote_type = 1 := by
          simpa [State.getVote, upd_ne _ _ _ _ hid] using hty
        rcases h2 id side a ha hty' with hl | he
        · exact Or.inl hl
        · right
          simpa [State.getVote, upd_ne _ _ _ _ hid] using he
    · intro id hc
      by_cases hid : id = ri
      · subst hid
        have hlt : (s.getVote id).vote_ends < s.height := hgt
        simpa [State.getVote, upd_same] using hlt
      · simp only [State.getVote, upd_ne _ _ _ _ hid] at hc ⊢
        exact h3 id hc
    · intro id c hcq
      have hcq' : s.voteCreator id = some c := hcq
      obtain ⟨ha, hb, hcc⟩ := h4 id c hcq'
      by_cases hid : id = ri
      · subst hid
        obtain ⟨v, hv⟩ := Option.isSome_iff_exists.mp ha
        refine ⟨by simp [upd_same], ?_, ?_⟩
        · simp only [State.getVote, upd_same, Option.getD_some]
          exact hb
        · have hbc : ((s.votesByIndex id).getD defaultVote).creator = c := hb
          simp only [State.getVote, hbc, upd_same, ← hcc]
      · refine ⟨?_, ?_, ?_⟩
        · simpa [upd_ne _ _ _ _ hid] using ha
        · simp only [State.getVote, upd_ne _ _ _ _ hid]
          exact hb
        · have hkey2 : (c, id) ≠ ((s.getVote ri).creator, ri) := fun hp =>
            hid (congrArg Prod.snd hp)
          simp only [upd_ne _ _ _ _ hid, upd_ne _ _ _ _ hkey2]
          exact hcc

/-- withdraw preserves the invariants. -/
theorem good_withdraw (s : State) (sv ri : Nat) (hg : GoodState s) :
    GoodState ((withdraw s sv ri).1) := by
  obtain ⟨h1, h2, h3, h4⟩ := hg
  rcases withdraw_spec s sv ri with ⟨hs, _⟩ | ⟨hty1, hconc, _, _, _, hs⟩
  · rw [hs]; exact ⟨h1, h2, h3, h4⟩
  · rw [hs]
    refine ⟨?_, ?_, ?_, ?_⟩
    · intro id side hne; exact h1 id side hne
    · intro id side a ha hty
      have hty' : (s.getVote id).vote_type = 1 := hty
      by_cases hk : (id, a) = (ri, sv)
      · have hid : id = ri := congrArg Prod.fst hk
        subst hid
        right
        show (s.getVote id).vote_ends ≤ s.height
        have := h3 id hconc
        omega
      · rcases h2 id side a ha hty' with hl | he
        · left
          simpa [upd_ne _ _ _ _ hk] using hl
        · exact Or.inr he
    · intro id hc; exact h3 id hc
    · intro id c hcq; exact h4 id c hcq

/-- Every step preserves the invariants. -/
theorem step_good {s s2 : State} (hst : Step s s2) (hg : GoodState s) : GoodState s2 := by
  cases hst with
  | act a =>
    cases a with
    | createV sv vt el d => exact good_create s sv vt el d hg
    | ballotV sv ri b => exact good_ballot s sv ri b hg
    | lockvoteV sv ri b dep dur => exact good_lockvote s sv ri b dep dur hg
    | concludeV ri => exact good_conclude s ri hg
    | withdrawV sv ri => exact good_withdraw s sv ri hg
  | advance h hle => exact good_advance s h hle hg
  | balances f => exact good_balances s f hg

/-- Every reachable state satisfies the invariants. -/
theorem reachable_good {s : State} (hr : Reachable s) : GoodState s := by
  obtain ⟨f, h, hrtg⟩ := hr
  induction hrtg with
  | refl => exact good_init f h
  | tail _ hstep ih => exact step_good hstep ih

/-- C2: from any reachable state, every dispatched operation that returns an
error leaves the whole state unchanged (no lock, no set, no record, no
notification).  In particular a failing cast_lockvote never commits its
LockInfo write: its only late failure point, the already-voted check of
cast_ballot_f, is unreachable once the earlier duplicate-lock and expiry
checks have passed. -/
theorem C2_errors_leave_state_unchanged (s : State) (hr : Reachable s) (a : Action)
    (he : errOf (applyAction s a).2 = true) : (applyAction s a).1 = s := by
  obtain ⟨_, hlock, _, _⟩ := reachable_good hr
  cases a with
  | createV sv vt el d =>
    simp only [applyAction] at he
    rcases create_vote_spec s sv vt el d with ⟨hs, _⟩ | ⟨_, _, _, _, hok, _⟩
    · exact hs
    · rw [hok] at he
      simp [errOf] at he
  | ballotV sv ri b =>
    simp only [applyAction] at he
    rcases cast_ballot_spec s sv ri b with ⟨hs, _⟩ | ⟨_, _, _, _, _, hok, _⟩
    · exact hs
    · rw [hok] at he
      simp [errOf] at he
  | lockvoteV sv ri b dep dur =>
    simp only [applyAction] at he
    rcases cast_lockvote_spec s sv ri b dep dur with ⟨hs, _⟩ | ⟨hnone, _, hty1, hbe, _, _, _, heq⟩
    · exact hs
    · exfalso
      rcases cast_ballot_f_spec (lockedState s sv ri dep dur) sv ri b with
        ⟨hm, _, _⟩ | ⟨_, hok, _⟩
      · have hm' : sv ∈ s.votedAccounts (ri, sideNat b) := by
          simpa [lockedState] using hm
        rcases hlock ri (sideNat b) sv hm' hty1 with hsome | hexp
        · rw [hnone] at hsome
          simp at hsome
        · omega
      · rw [congrArg Prod.snd heq, hok] at he
        simp [errOf] at he
  | concludeV ri =>
    simp only [applyAction] at he
    rcases conclude_vote_spec s ri with ⟨hs, _⟩ | ⟨_, _, hok, _⟩
    · exact hs
    · rw [hok] at he
      simp [errOf] at he
  | withdrawV sv ri =>
    simp only [applyAction] at he
    rcases withdraw_spec s sv ri with ⟨hs, _⟩ | ⟨_, _, _, _, hok, _⟩
    · exact hs
    · rw [hok] at he
      simp [errOf] at he

/-- Witness for C2 at the genesis state: casting a ballot on a vote that
does not exist errors and leaves the state exactly as it was. -/
theorem C2_errors_leave_state_unchanged_witness :
    (applyAction (init exBalances 0) (Action.ballotV 1 1 Ballot.Aye)).1 = init exBalances 0 :=
  C2_errors_leave_state_unchanged (init exBalances 0)
    ⟨exBalances, 0, Relation.ReflTransGen.refl⟩ (Action.ballotV 1 1 Ballot.Aye) rfl

/-- C10: in every reachable state, each created vote id (one registered in
VoteCreator) stores the same VoteRecord in VotesByIndex and in
VoteByCreatorArray under its creator. -/
theorem C10_both_vote_indexes_agree (s : State) (hr : Reachable s) (id c : Nat)
    (hcr : s.voteCreator id = some c) :
    s.votesByIndex id = s.voteByCreatorArray (c, id) :=
  ((reachable_good hr).2.2.2 id c hcr).2.2

/-- Witness for C10 after one creation step: vote 1 has the same record in
both indexes. -/
theorem C10_both_vote_indexes_agree_witness :
    c10w.votesByIndex 1 = c10w.voteByCreatorArray (5, 1) := by
  have hr : Reachable c10w :=
    ⟨exBalances, 0, Relation.ReflTransGen.tail Relation.ReflTransGen.refl
      (Step.act (init exBalances 0) (Action.createV 5 0 10 []))⟩
  exact C10_both_vote_indexes_agree c10w hr 1 5 rfl

/-- C1: the claim says the LockWeighted tally sums the Nay side over the Nay
voter set, yielding aye_weight=50, nay_weight=12 on the example.  The code
iterates the Aye set for both accumulators: on the example trace the Nay
voter's own weight is 12, yet conclusion persists [50, 50]. -/
theorem C1_lockweighted_tally_sums_aye_set_twice :
    (cast_lockvote lv1 1 1 Ballot.Aye 10 5).2 = Except.ok () ∧
    (cast_lockvote lv2 2 1 Ballot.Nay 4 3).2 = Except.ok () ∧
    lv3.votedAccounts (1, 0) = [1] ∧
    lv3.votedAccounts (1, 1) = [2] ∧
    lockWeight lv4 1 1 = 50 ∧
    lockWeight lv4 1 2 = 12 ∧
    (conclude_vote lv4 1).2 = Except.ok () ∧
    (conclude_vote lv4 1).1.voteResults 1 = some [50, 50] :=
  ⟨rfl, rfl, rfl, rfl, rfl, rfl, rfl, rfl⟩

/-- C3: the claim says concluding a never-created vote id fails and writes
nothing.  conclude_vote has no existence check: at height 1 on the genesis
state, concluding id 999 succeeds, stores the tally result [0, 0], writes a
default VoteRecord marked concluded, and emits the Concluded notification. -/
theorem C3_conclude_nonexistent_vote_succeeds :
    (init exBalances 1).votesByIndex 999 = none ∧
    (conclude_vote (init exBalances 1) 999).2 = Except.ok () ∧
    (conclude_vote (init exBalances 1) 999).1.voteResults 999 = some [0, 0] ∧
    (conclude_vote (init exBalances 1) 999).1.votesByIndex 999 =
      some { defaultVote with concluded := true } ∧
    (conclude_vote (init exBalances 1) 999).1.events = [Event.Concluded 999] :=
  ⟨rfl, rfl, rfl, rfl, rfl⟩

/-- C4: the claim says the Aye and Nay voter sets are disjoint in every
reachable state.  After the reachable side-switch trace (Aye then Nay by the
same eligible voter on a Simple vote) account 1 is recorded in both sets:
the switch removes it from the opposite side only on a local copy that is
never written back to storage. -/
theorem C4_voter_sets_not_disjoint_after_switch :
    Reachable sw3 ∧
    sw3.votedAccounts (1, 0) = [1] ∧
    sw3.votedAccounts (1, 1) = [1] := by
  refine ⟨⟨exBalances, 0, ?_⟩, rfl, rfl⟩
  have h1 : Step sw0 sw1 := Step.act sw0 (Action.createV 0 0 10 [])
  have h2 : Step sw1 sw2 := Step.act sw1 (Action.ballotV 1 1 Ballot.Aye)
  have h3 : Step sw2 sw3 := Step.act sw2 (Action.ballotV 1 1 Ballot.Nay)
  exact Relation.ReflTransGen.tail
    (Relation.ReflTransGen.tail (Relation.ReflTransGen.tail Relation.ReflTransGen.refl h1) h2) h3

/-- C7: the claim says a switching voter is removed from the opposite set,
ends up only in the requested side, and each set size changes by exactly
one.  On the side-switch trace the switch to Nay succeeds but leaves the
Aye storage list unchanged (still holding the voter), so the voter is in
both sides and the Aye set size did not change. -/
theorem C7_switch_leaves_voter_in_opposite_set :
    (cast_ballot sw2 1 1 Ballot.Nay).2 = Except.ok () ∧
    sw2.votedAccounts (1, 0) = [1] ∧
    sw3.votedAccounts (1, 0) = [1] ∧
    sw3.votedAccounts (1, 1) = [1] :=
  ⟨rfl, rfl, rfl, rfl⟩

end MGov

